import Mathlib

/-!
Verification of the secure-envelope encryption utility (encryption.js,
class SecureEncryption) of the strava-connect repository.

The engine is embedded shallowly:

* JS `Buffer` contents are `Bytes = List (Fin 256)`.
* The Node library primitives the engine delegates to (PBKDF2, AES-256-GCM,
  UTF-8 text codecs, base64 codecs) are not part of the repository; they are
  modelled as a parameter structure `CryptoPrims` whose propositional fields
  state exactly the documented contracts of those primitives that the engine
  relies on (output lengths, AEAD round-trip, AEAD authenticity, codec
  round-trips).  All theorems are parametric in the primitives; the concrete
  executable instance `toyPrims` below discharges the hypotheses in witnesses.
* Buffers have identity in JS (the `Set` tracks object references), so the
  engine state carries a heap `List (Nat × Bytes)` from buffer ids to current
  contents, and `tempBuffers` is the list of tracked ids.
* `crypto.randomFillSync` is modelled by passing the freshly drawn random
  salt and iv bytes as explicit arguments to `encrypt`.
* Thrown JS errors are the constructors of `Err`, using the spec's error
  vocabulary: the constructor-time failures are `ConfigurationError`, the
  message of `encrypt`/`decrypt` failures (the catch blocks rethrowing
  `Encryption failed` / `Decryption failed`) is `CryptoError`, the
  `Object has been destroyed` guard is `LifecycleError`, and `RangeError`
  is the raw `Buffer.alloc` failure on a negative size before it is caught
  and wrapped by a surrounding try/catch.
* Operations return `Except Err α × EngineState`: the state is returned on
  both success and failure, because the JS catch blocks mutate the instance
  (clearAllTempBuffers) before rethrowing.
-/

namespace StravaConnect

abbrev Byte := Fin 256

abbrev Bytes := List Byte

/-- A zero-filled byte list, the contents of a fresh `Buffer.alloc(n)`. -/
def zeroes (n : Nat) : Bytes := List.replicate n 0

/-- Error kinds of the engine, in the spec's vocabulary (section 7). -/
inductive Err where
  | ConfigurationError
  | CryptoError
  | LifecycleError
  | RangeError
deriving DecidableEq, Repr

/-- The Node library primitives used by encryption.js, together with the
documented contracts the engine relies on.  `pbkdf2` takes master key, salt,
iteration count and output length (the hash is fixed to sha256 in the source
and therefore not a parameter).  `gcmEnc key iv pt` returns the pair
(ciphertext, authentication tag) of AES-256-GCM; `gcmDec key iv tag ct`
returns the plaintext when the tag authenticates and fails otherwise
(the `decipher.final()` throw).  `utf8Dec` is total, as `buf.toString` is in
Node; `b64Dec` is total, as `Buffer.from(s, 'base64')` is in Node. -/
structure CryptoPrims where
  pbkdf2 : Bytes → Bytes → Nat → Nat → Bytes
  gcmEnc : Bytes → Bytes → Bytes → Bytes × Bytes
  gcmDec : Bytes → Bytes → Bytes → Bytes → Option Bytes
  utf8Enc : String → Bytes
  utf8Dec : Bytes → String
  b64Enc : Bytes → String
  b64Dec : String → Bytes
  pbkdf2_length : ∀ k s it len, (pbkdf2 k s it len).length = len
  gcmEnc_tag_length : ∀ k iv pt, (gcmEnc k iv pt).2.length = 16
  gcmEnc_ct_length : ∀ k iv pt, (gcmEnc k iv pt).1.length = pt.length
  gcmDec_gcmEnc : ∀ k iv pt, gcmDec k iv (gcmEnc k iv pt).2 (gcmEnc k iv pt).1 = some pt
  gcmDec_auth : ∀ k iv tag ct pt, gcmDec k iv tag ct = some pt → gcmEnc k iv pt = (ct, tag)
  utf8Dec_utf8Enc : ∀ s, utf8Dec (utf8Enc s) = s
  b64Dec_b64Enc : ∀ b, b64Dec (b64Enc b) = b

/-- The mutable instance state of a `SecureEncryption` object: the private
fields `#masterKey`, `#isDestroyed`, `#tempBuffers` (a `Set` of buffer
objects, here their ids) together with a heap giving each allocated buffer's
current contents.  The public metadata fields (`algorithm`, `ivLength`, ...)
are compile-time constants and are not carried. -/
structure EngineState where
  masterKey : Option Bytes
  isDestroyed : Bool
  tempBuffers : List Nat
  heap : List (Nat × Bytes)
  nextId : Nat
deriving DecidableEq, Repr

/-- Look up a buffer's current contents in the heap. -/
def heapGet (heap : List (Nat × Bytes)) (id : Nat) : Option Bytes :=
  (heap.find? (fun e => e.1 = id)).map (fun e => e.2)

/-- Overwrite a buffer's contents in the heap (JS mutation of the buffer). -/
def heapSet (heap : List (Nat × Bytes)) (id : Nat) (v : Bytes) : List (Nat × Bytes) :=
  heap.map (fun e => if e.1 = id then (e.1, v) else e)

/-- Node `src.copy(dst, 0, srcStart, srcEnd)` semantics restricted to what
decrypt uses: `min src.length dst.length` bytes of `src` are copied to the
front of `dst`, the rest of `dst` is unchanged. -/
def copyInto (dst src : Bytes) : Bytes :=
  src.take (min src.length dst.length) ++ dst.drop (min src.length dst.length)

/-- `createTempBuffer(size)` (encryption.js lines 166-175): throws the
lifecycle guard when destroyed, otherwise allocates a zero-filled buffer and
adds it to the tracking set.  `Buffer.alloc` throws a RangeError on a
negative size, hence the `Int` argument. -/
def createTempBuffer (st : EngineState) (size : Int) : Except Err Nat × EngineState :=
  if st.isDestroyed then (.error .LifecycleError, st)
  else if size < 0 then (.error .RangeError, st)
  else
    (.ok st.nextId,
      { st with
        tempBuffers := st.tempBuffers ++ [st.nextId]
        heap := st.heap ++ [(st.nextId, zeroes size.toNat)]
        nextId := st.nextId + 1 })

/-- `clearBuffer(buffer)` (encryption.js lines 177-184): fills the buffer
with zero bytes and deletes it from the tracking set.  There is no
destroyed-guard and no failure path in the source. -/
def clearBuffer (st : EngineState) (id : Nat) : EngineState :=
  { st with
    heap := st.heap.map (fun e => if e.1 = id then (e.1, zeroes e.2.length) else e)
    tempBuffers := st.tempBuffers.filter (fun j => j ≠ id) }

/-- `clearAllTempBuffers()` (encryption.js lines 186-194): zero-fills every
tracked buffer, then empties the tracking set.  No destroyed-guard. -/
def clearAllTempBuffers (st : EngineState) : EngineState :=
  { st with
    heap := st.heap.map (fun e => if e.1 ∈ st.tempBuffers then (e.1, zeroes e.2.length) else e)
    tempBuffers := [] }

/-- `destroy()` (encryption.js lines 203-230): early-returns when already
destroyed; otherwise wipes and nulls the master key, clears all tracked
buffers, and marks the instance destroyed.  (The nulling of the public
metadata properties and the gc hint have no observable in the model.) -/
def destroy (st : EngineState) : EngineState :=
  if st.isDestroyed then st
  else
    let st1 := { st with masterKey := none }
    let st2 := clearAllTempBuffers st1
    { st2 with isDestroyed := true }

/-- `#deriveKey(saltBuffer)` (encryption.js lines 137-158): allocates a
tracked 32-byte buffer, runs PBKDF2(masterKey, salt, 100000 iterations,
32 bytes, sha256) into an untracked buffer, copies it into the tracked
buffer and zero-fills the untracked one.  Returns the tracked buffer's id
and contents. -/
def deriveKey (P : CryptoPrims) (st : EngineState) (saltContents : Bytes) :
    Except Err (Nat × Bytes) × EngineState :=
  match createTempBuffer st 32 with
  | (.error e, st1) => (.error e, st1)
  | (.ok keyId, st1) =>
    let dk := copyInto (zeroes 32) (P.pbkdf2 (st1.masterKey.getD []) saltContents 100000 32)
    (.ok (keyId, dk), { st1 with heap := heapSet st1.heap keyId dk })

/-- `encrypt(plaintext)` (encryption.js lines 44-88).  `salt` and `iv` are
the bytes drawn by the two `crypto.randomFillSync` calls (32 and 12 bytes).
Any error thrown inside the try block is caught, `clearAllTempBuffers` runs,
and the error is rethrown as an encryption failure (`CryptoError`). -/
def encrypt (P : CryptoPrims) (st : EngineState) (salt iv : Bytes) (plaintext : String) :
    Except Err String × EngineState :=
  if st.isDestroyed then (.error .LifecycleError, st)
  else
    let ptBytes := P.utf8Enc plaintext
    match createTempBuffer st 32 with
    | (.error _, stE) => (.error .CryptoError, clearAllTempBuffers stE)
    | (.ok saltId, st1) =>
      match createTempBuffer st1 12 with
      | (.error _, stE) => (.error .CryptoError, clearAllTempBuffers stE)
      | (.ok ivId, st2) =>
        match createTempBuffer st2 (ptBytes.length : Int) with
        | (.error _, stE) => (.error .CryptoError, clearAllTempBuffers stE)
        | (.ok ptId, st3) =>
          let st4 :=
            { st3 with
              heap := heapSet (heapSet (heapSet st3.heap saltId salt) ivId iv) ptId ptBytes }
          match deriveKey P st4 salt with
          | (.error _, stE) => (.error .CryptoError, clearAllTempBuffers stE)
          | (.ok (keyId, dk), st5) =>
            let ctTag := P.gcmEnc dk iv ptBytes
            let result := salt ++ iv ++ ctTag.2 ++ ctTag.1
            let st6 := clearBuffer st5 ptId
            let st7 := clearBuffer st6 keyId
            (.ok (P.b64Enc result), st7)

/-- `decrypt(encryptedData)` (encryption.js lines 90-135): base64-decodes
the envelope, copies the slices at offsets 0-32 (salt), 32-44 (iv),
44-60 (tag), 60-end (ciphertext) into tracked buffers, re-derives the key
and runs GCM decryption.  Any error thrown inside the try block — including
the RangeError from allocating a buffer of negative size `data.length - 60`
and the tag-mismatch throw of `decipher.final()` — is caught,
`clearAllTempBuffers` runs, and a decryption failure (`CryptoError`)
propagates. -/
def decrypt (P : CryptoPrims) (st : EngineState) (encryptedData : String) :
    Except Err String × EngineState :=
  if st.isDestroyed then (.error .LifecycleError, st)
  else
    let data := P.b64Dec encryptedData
    match createTempBuffer st 32 with
    | (.error _, stE) => (.error .CryptoError, clearAllTempBuffers stE)
    | (.ok saltId, st1) =>
      match createTempBuffer st1 12 with
      | (.error _, stE) => (.error .CryptoError, clearAllTempBuffers stE)
      | (.ok ivId, st2) =>
        match createTempBuffer st2 16 with
        | (.error _, stE) => (.error .CryptoError, clearAllTempBuffers stE)
        | (.ok tagId, st3) =>
          match createTempBuffer st3 ((data.length : Int) - 60) with
          | (.error _, stE) => (.error .CryptoError, clearAllTempBuffers stE)
          | (.ok ctId, st4) =>
            let saltC := copyInto (zeroes 32) (data.take 32)
            let ivC := copyInto (zeroes 12) ((data.drop 32).take 12)
            let tagC := copyInto (zeroes 16) ((data.drop 44).take 16)
            let ctC := copyInto (zeroes (data.length - 60)) (data.drop 60)
            let st5 :=
              { st4 with
                heap := heapSet (heapSet (heapSet (heapSet st4.heap saltId saltC)
                  ivId ivC) tagId tagC) ctId ctC }
            match deriveKey P st5 saltC with
            | (.error _, stE) => (.error .CryptoError, clearAllTempBuffers stE)
            | (.ok (keyId, dk), st6) =>
              match P.gcmDec dk ivC tagC ctC with
              | none => (.error .CryptoError, clearAllTempBuffers st6)
              | some ptBytes =>
                let result := P.utf8Dec ptBytes
                let st7 := clearBuffer st6 keyId
                (.ok result, st7)

/-- JS `String.prototype.toUpperCase` restricted to what the engine does
with it: per-character uppercasing of the source tag. -/
def upperJS (s : String) : String := String.mk (s.data.map Char.toUpper)

/-- `#setMasterKey(source)` (encryption.js lines 24-42): resolves the
configuration value named by the upper-cased source tag, rejects a missing
or falsy (empty) value, base64-decodes it, and rejects any decoded length
other than 32.  Both rejections are constructor-time `ConfigurationError`s. -/
def setMasterKey (P : CryptoPrims) (env : String → Option String) (source : String) :
    Except Err Bytes :=
  match env (upperJS source ++ "_ENCRYPTION_KEY") with
  | none => .error .ConfigurationError
  | some envKey =>
    if envKey = "" then .error .ConfigurationError
    else
      let key := P.b64Dec envKey
      if key.length = 32 then .ok key else .error .ConfigurationError

/-- `new SecureEncryption(source)` (encryption.js lines 13-22): sets the
constants and resolves the master key; a fresh engine starts non-destroyed
with an empty tracking set. -/
def mkEngine (P : CryptoPrims) (env : String → Option String) (source : String) :
    Except Err EngineState :=
  (setMasterKey P env source).map fun k =>
    { masterKey := some k, isDestroyed := false, tempBuffers := [], heap := [], nextId := 0 }

/-! ### A concrete executable instance of the primitives

The theorems below are parametric in `CryptoPrims`; this instance exists so
that every theorem can be exercised on concrete inputs.  It is a stand-in
for the Node primitives that satisfies exactly the contracts stated in
`CryptoPrims` (it is of course not cryptographically strong). -/

/-- Truncate a natural number to a byte. -/
def byte (n : Nat) : Byte := ⟨n % 256, Nat.mod_lt _ (by norm_num)⟩

/-- Key-derivation stand-in: bytes determined by key, salt and position. -/
def toyPbkdf2 (k s : Bytes) (it len : Nat) : Bytes :=
  (List.range len).map (fun i => (k ++ s).getD i 0 + byte (i + it))

/-- Keystream byte at position `i` for the stand-in stream cipher. -/
def ks (key iv : Bytes) (i : Nat) : Byte :=
  key.getD (i % 32) 0 + iv.getD (i % 12) 0 + byte i

/-- Add the keystream to a byte list, starting at position `i`. -/
def streamAdd (key iv : Bytes) : Nat → Bytes → Bytes
  | _, [] => []
  | i, b :: rest => (b + ks key iv i) :: streamAdd key iv (i + 1) rest

/-- Subtract the keystream from a byte list, starting at position `i`. -/
def streamSub (key iv : Bytes) : Nat → Bytes → Bytes
  | _, [] => []
  | i, b :: rest => (b - ks key iv i) :: streamSub key iv (i + 1) rest

/-- Checksum byte over key, iv and ciphertext for the stand-in tag. -/
def chk (key iv ct : Bytes) : Byte :=
  (key ++ iv ++ ct).foldl (fun a b => a + b) 0 + byte ct.length

/-- 16-byte authentication tag of the stand-in AEAD. -/
def toyTag (key iv ct : Bytes) : Bytes := List.replicate 16 (chk key iv ct)

/-- Stand-in AEAD encryption: stream-ciphered bytes plus a deterministic tag. -/
def toyGcmEnc (key iv pt : Bytes) : Bytes × Bytes :=
  (streamAdd key iv 0 pt, toyTag key iv (streamAdd key iv 0 pt))

/-- Stand-in AEAD decryption: recompute the tag, fail on mismatch. -/
def toyGcmDec (key iv tag ct : Bytes) : Option Bytes :=
  if tag = toyTag key iv ct then some (streamSub key iv 0 ct) else none

/-- Injective text-to-bytes codec used as the UTF-8 stand-in: three bytes
per character (code points fit in 21 bits). -/
def encChars : List Char → Bytes
  | [] => []
  | c :: cs =>
    byte (c.toNat / 65536) :: byte (c.toNat / 256 % 256) :: byte (c.toNat % 256) :: encChars cs

/-- Inverse of `encChars`; trailing group shorter than three bytes drops. -/
def decChars : Bytes → List Char
  | a :: b :: c :: rest => Char.ofNat (a.val * 65536 + b.val * 256 + c.val) :: decChars rest
  | _ => []

def toyUtf8Enc (s : String) : Bytes := encChars s.data

def toyUtf8Dec (l : Bytes) : String := String.mk (decChars l)

/-- Injective bytes-to-text codec used as the base64 stand-in. -/
def toyB64Enc (l : Bytes) : String := String.mk (l.map (fun b => Char.ofNat b.val))

def toyB64Dec (s : String) : Bytes := s.data.map (fun c => byte c.toNat)

/-- The concrete primitive pack. -/
def toyPrims : CryptoPrims where
  pbkdf2 := toyPbkdf2
  gcmEnc := toyGcmEnc
  gcmDec := toyGcmDec
  utf8Enc := toyUtf8Enc
  utf8Dec := toyUtf8Dec
  b64Enc := toyB64Enc
  b64Dec := toyB64Dec
  pbkdf2_length := by intro k s it len; simp [toyPbkdf2]
  gcmEnc_tag_length := by intro k iv pt; simp [toyGcmEnc, toyTag]
  gcmEnc_ct_length := by
    intro k iv pt
    have h : ∀ i l, (streamAdd k iv i l).length = l.length := by
      intro i l
      induction l generalizing i with
      | nil => simp [streamAdd]
      | cons b t ih => simp [streamAdd, ih]
    exact h 0 pt
  gcmDec_gcmEnc := by
    intro k iv pt
    have h : ∀ i l, streamSub k iv i (streamAdd k iv i l) = l := by
      intro i l
      induction l generalizing i with
      | nil => simp [streamAdd, streamSub]
      | cons b t ih => simp [streamAdd, streamSub, ih]
    simp [toyGcmEnc, toyGcmDec, h 0 pt]
  gcmDec_auth := by
    intro k iv tag ct pt h
    have hinv : ∀ i l, streamAdd k iv i (streamSub k iv i l) = l := by
      intro i l
      induction l generalizing i with
      | nil => simp [streamAdd, streamSub]
      | cons b t ih => simp [streamAdd, streamSub, ih]
    by_cases htag : tag = toyTag k iv ct
    · simp [toyGcmDec, htag] at h
      simp [toyGcmEnc, ← h, hinv 0 ct, htag]
    · simp [toyGcmDec, htag] at h
  utf8Dec_utf8Enc := by
    intro s
    have h : ∀ cs, decChars (encChars cs) = cs := by
      intro cs
      induction cs with
      | nil => simp [encChars, decChars]
      | cons c t ih =>
        have hval : c.toNat < 1114112 := by
          rcases c.valid with h1 | ⟨_, h2⟩
          · exact lt_trans h1 (by norm_num)
          · exact h2
        have harith :
            (c.toNat / 65536) % 256 * 65536 + (c.toNat / 256 % 256) % 256 * 256
              + (c.toNat % 256) % 256 = c.toNat := by omega
        simp only [encChars, decChars, byte, ih, List.cons.injEq, and_true]
        rw [harith, Char.ofNat_toNat]
    show String.mk (decChars (encChars s.data)) = s
    rw [h]
  b64Dec_b64Enc := by
    intro b
    have h : ∀ x : Byte, byte (Char.ofNat x.val).toNat = x := by
      intro x
      have hvalid : Nat.isValidChar x.val := Or.inl (lt_trans x.isLt (by norm_num))
      have htn : (Char.ofNat x.val).toNat = x.val := by
        simp [Char.ofNat, hvalid, Char.ofNatAux, Char.toNat]
        rfl
      rw [htn]
      exact Fin.ext (Nat.mod_eq_of_lt x.isLt)
    simp only [toyB64Enc, toyB64Dec]
    show (b.map (fun b => Char.ofNat b.val)).map (fun c => byte c.toNat) = b
    rw [List.map_map]
    exact (List.map_congr_left (fun x _ => h x)).trans (List.map_id b)

/-- A fresh engine bound to the all-zero 32-byte master key, as produced by
`mkEngine` on a configured environment. -/
def st0 : EngineState :=
  { masterKey := some (zeroes 32), isDestroyed := false
    tempBuffers := [], heap := [], nextId := 0 }

/-- The key an all-zero-master-key engine derives for the all-zero salt. -/
def dkC2 : Bytes := toyPbkdf2 (zeroes 32) (zeroes 32) 100000 32

/-- A 16-byte tag that does not authenticate the empty ciphertext under
`dkC2` and the all-zero iv (every byte of the valid tag, incremented). -/
def tagBad : Bytes := List.replicate 16 (chk dkC2 (zeroes 12) [] + 1)

/-- A 60-byte envelope (empty ciphertext) whose tag region is `tagBad`. -/
def envC2 : String := toyB64Enc (zeroes 32 ++ zeroes 12 ++ tagBad)

/-- A configuration with no values at all. -/
def envNone : String → Option String := fun _ => none

/-- An engine state with one tracked two-byte buffer, for exercising
`clearBuffer`. -/
def stW : EngineState :=
  { masterKey := some (zeroes 32), isDestroyed := false
    tempBuffers := [0], heap := [(0, [5, 7])], nextId := 1 }

/-- A 32-byte salt different from the all-zero salt. -/
def saltB : Bytes := 1 :: zeroes 31

/-! ### Helper lemmas -/

theorem zeroes_length (n : Nat) : (zeroes n).length = n := by simp [zeroes]

theorem copyInto_exact (dst src : Bytes) (h : src.length = dst.length) :
    copyInto dst src = src := by
  unfold copyInto
  rw [h, min_self, List.drop_length, List.append_nil, ← h, List.take_length]

theorem copyInto_length (dst src : Bytes) : (copyInto dst src).length = dst.length := by
  simp [copyInto]

theorem copyInto_zeroes_pbkdf2 (P : CryptoPrims) (k s : Bytes) (it : Nat) :
    copyInto (zeroes 32) (P.pbkdf2 k s it 32) = P.pbkdf2 k s it 32 :=
  copyInto_exact _ _ (by rw [P.pbkdf2_length, zeroes_length])

theorem take_len_append (a b : Bytes) (n : Nat) (h : a.length = n) :
    (a ++ b).take n = a := by
  rw [← h]; simp

theorem drop_len_append (a b : Bytes) (n : Nat) (h : a.length = n) :
    (a ++ b).drop n = b := by
  rw [← h]; simp

theorem heapGet_append_right (h1 h2 : List (Nat × Bytes)) (id : Nat)
    (h : ∀ e ∈ h1, e.1 ≠ id) : heapGet (h1 ++ h2) id = heapGet h2 id := by
  induction h1 with
  | nil => simp
  | cons e t ih =>
    simp only [List.cons_append]
    unfold heapGet
    rw [List.find?_cons_of_neg]
    · exact ih (fun x hx => h x (List.mem_cons_of_mem _ hx))
    · simp [h e (List.mem_cons_self _ _)]

theorem heapGet_cons_self (e : Nat × Bytes) (t : List (Nat × Bytes)) :
    heapGet (e :: t) e.1 = some e.2 := by
  unfold heapGet
  rw [List.find?_cons_of_pos]
  · rfl
  · simp

theorem heapGet_cons (e : Nat × Bytes) (t : List (Nat × Bytes)) (id : Nat) :
    heapGet (e :: t) id = if e.1 = id then some e.2 else heapGet t id := by
  by_cases h : e.1 = id
  · rw [if_pos h]
    unfold heapGet
    rw [List.find?_cons_of_pos _ (by simp [h])]
    rfl
  · rw [if_neg h]
    unfold heapGet
    rw [List.find?_cons_of_neg _ (by simp [h])]

theorem heapGet_heapSet (heap : List (Nat × Bytes)) (bid : Nat) (v : Bytes) (id : Nat) :
    heapGet (heapSet heap bid v) id =
      if id = bid then (heapGet heap id).map (fun _ => v) else heapGet heap id := by
  induction heap with
  | nil => simp [heapGet, heapSet]
  | cons e t ih =>
    by_cases hei : e.1 = id
    · subst hei
      by_cases heb : e.1 = bid
      · simp [heapGet, heapSet, heb, List.find?_cons]
      · simp [heapGet, heapSet, heb, List.find?_cons]
    · have hh : heapGet (e :: t) id = heapGet t id := by
        unfold heapGet
        rw [List.find?_cons_of_neg]
        simp [hei]
      have hh2 : heapGet (heapSet (e :: t) bid v) id = heapGet (heapSet t bid v) id := by
        unfold heapGet heapSet
        simp only [List.map_cons]
        rw [List.find?_cons_of_neg]
        have : (if e.1 = bid then (e.1, v) else e).1 = e.1 := by
          split <;> rfl
        simp [this, hei]
      rw [hh2, hh, ih]

theorem heapGet_map_keepFst (heap : List (Nat × Bytes)) (upd : Nat × Bytes → Nat × Bytes)
    (hfst : ∀ e, (upd e).1 = e.1) (id : Nat) :
    heapGet (heap.map upd) id = (heapGet heap id).map (fun b => (upd (id, b)).2) := by
  induction heap with
  | nil => simp [heapGet]
  | cons e t ih =>
    by_cases hei : e.1 = id
    · unfold heapGet
      simp only [List.map_cons]
      rw [List.find?_cons_of_pos _ (by simp [hfst, hei]),
        List.find?_cons_of_pos _ (by simp [hei])]
      simp [← hei]
    · unfold heapGet
      simp only [List.map_cons]
      rw [List.find?_cons_of_neg _ (by simp [hfst, hei]),
        List.find?_cons_of_neg _ (by simp [hei])]
      exact ih

theorem heapGet_clearBuffer (st : EngineState) (id j : Nat) :
    heapGet (clearBuffer st id).heap j =
      if j = id then (heapGet st.heap j).map (fun b => zeroes b.length)
      else heapGet st.heap j := by
  show heapGet (st.heap.map _) j = _
  rw [heapGet_map_keepFst _ _ (fun e => by by_cases h : e.1 = id <;> simp [h])]
  by_cases h : j = id
  · simp [h]
  · simp [h]

theorem tempBuffers_clearBuffer (st : EngineState) (id : Nat) :
    (clearBuffer st id).tempBuffers = st.tempBuffers.filter (fun x => x ≠ id) := rfl

theorem heapGet_clearAll (st : EngineState) (j : Nat) :
    heapGet (clearAllTempBuffers st).heap j =
      if j ∈ st.tempBuffers then (heapGet st.heap j).map (fun b => zeroes b.length)
      else heapGet st.heap j := by
  show heapGet (st.heap.map _) j = _
  rw [heapGet_map_keepFst _ _ (fun e => by by_cases h : e.1 ∈ st.tempBuffers <;> simp [h])]
  by_cases h : j ∈ st.tempBuffers
  · simp [h]
  · simp [h]

theorem tempBuffers_clearAll (st : EngineState) :
    (clearAllTempBuffers st).tempBuffers = [] := rfl

theorem createTempBuffer_live (st : EngineState) (size : Int)
    (hd : st.isDestroyed = false) (hsz : 0 ≤ size) :
    createTempBuffer st size =
      (.ok st.nextId,
        { st with
          tempBuffers := st.tempBuffers ++ [st.nextId]
          heap := st.heap ++ [(st.nextId, zeroes size.toNat)]
          nextId := st.nextId + 1 }) := by
  simp [createTempBuffer, hd, not_lt.mpr hsz]

theorem not_natCast_int_lt_zero (n : Nat) : ¬((n : Int) < 0) :=
  Int.not_lt.mpr (Int.natCast_nonneg n)

theorem encrypt_fst (P : CryptoPrims) (st : EngineState) (salt iv : Bytes) (p : String)
    (hd : st.isDestroyed = false) :
    (encrypt P st salt iv p).1 =
      .ok (P.b64Enc (salt ++ iv
        ++ (P.gcmEnc (copyInto (zeroes 32) (P.pbkdf2 (st.masterKey.getD []) salt 100000 32))
            iv (P.utf8Enc p)).2
        ++ (P.gcmEnc (copyInto (zeroes 32) (P.pbkdf2 (st.masterKey.getD []) salt 100000 32))
            iv (P.utf8Enc p)).1)) := by
  simp [encrypt, createTempBuffer, deriveKey, hd, not_natCast_int_lt_zero]

theorem encrypt_isDestroyed (P : CryptoPrims) (st : EngineState) (salt iv : Bytes) (p : String)
    (hd : st.isDestroyed = false) :
    ((encrypt P st salt iv p).2).isDestroyed = false := by
  simp [encrypt, createTempBuffer, deriveKey, clearBuffer, hd, not_natCast_int_lt_zero]

theorem encrypt_masterKey (P : CryptoPrims) (st : EngineState) (salt iv : Bytes) (p : String)
    (hd : st.isDestroyed = false) :
    ((encrypt P st salt iv p).2).masterKey = st.masterKey := by
  simp [encrypt, createTempBuffer, deriveKey, clearBuffer, hd, not_natCast_int_lt_zero]

theorem encrypt_tempBuffers (P : CryptoPrims) (st : EngineState) (salt iv : Bytes) (p : String)
    (hd : st.isDestroyed = false)
    (hfresh : ∀ id ∈ st.tempBuffers, id < st.nextId) :
    ((encrypt P st salt iv p).2).tempBuffers = st.tempBuffers ++ [st.nextId, st.nextId + 1] := by
  have hne2 : st.nextId ≠ st.nextId + 2 := by omega
  have hne3 : st.nextId ≠ st.nextId + 3 := by omega
  have hne12 : st.nextId + 1 ≠ st.nextId + 2 := by omega
  have hne13 : st.nextId + 1 ≠ st.nextId + 3 := by omega
  have hne23 : st.nextId + 2 ≠ st.nextId + 3 := by omega
  have hf2 : st.tempBuffers.filter (fun j => j ≠ st.nextId + 2) = st.tempBuffers :=
    List.filter_eq_self.mpr (fun a ha => by
      have := hfresh a ha
      simp
      omega)
  have hf3 : st.tempBuffers.filter (fun j => j ≠ st.nextId + 3) = st.tempBuffers :=
    List.filter_eq_self.mpr (fun a ha => by
      have := hfresh a ha
      simp
      omega)
  simp [encrypt, createTempBuffer, deriveKey, clearBuffer, hd, not_natCast_int_lt_zero,
    List.filter_append, hf2, hf3, hne2, hne3, hne12, hne13, hne23]
  intro a ha
  have := hfresh a ha
  omega

theorem encrypt_nextId (P : CryptoPrims) (st : EngineState) (salt iv : Bytes) (p : String)
    (hd : st.isDestroyed = false) :
    ((encrypt P st salt iv p).2).nextId = st.nextId + 4 := by
  simp [encrypt, createTempBuffer, deriveKey, clearBuffer, hd, not_natCast_int_lt_zero]

theorem encrypt_heap (P : CryptoPrims) (st : EngineState) (salt iv : Bytes) (p : String)
    (hd : st.isDestroyed = false)
    (hheap : ∀ e ∈ st.heap, e.1 < st.nextId) :
    ((encrypt P st salt iv p).2).heap =
      st.heap ++ [(st.nextId, salt), (st.nextId + 1, iv),
        (st.nextId + 2, zeroes (P.utf8Enc p).length), (st.nextId + 3, zeroes 32)] := by
  have e2 : st.nextId + 1 + 1 = st.nextId + 2 := rfl
  have e3 : st.nextId + 1 + 1 + 1 = st.nextId + 3 := rfl
  have ha01 : st.nextId ≠ st.nextId + 1 := by omega
  have ha02 : st.nextId ≠ st.nextId + 2 := by omega
  have ha03 : st.nextId ≠ st.nextId + 3 := by omega
  have ha10 : st.nextId + 1 ≠ st.nextId := by omega
  have ha12 : st.nextId + 1 ≠ st.nextId + 2 := by omega
  have ha13 : st.nextId + 1 ≠ st.nextId + 3 := by omega
  have ha20 : st.nextId + 2 ≠ st.nextId := by omega
  have ha21 : st.nextId + 2 ≠ st.nextId + 1 := by omega
  have ha23 : st.nextId + 2 ≠ st.nextId + 3 := by omega
  have ha30 : st.nextId + 3 ≠ st.nextId := by omega
  have ha31 : st.nextId + 3 ≠ st.nextId + 1 := by omega
  have ha32 : st.nextId + 3 ≠ st.nextId + 2 := by omega
  have ms0 : ∀ v : Bytes,
      st.heap.map (fun e => if e.1 = st.nextId then (e.1, v) else e) = st.heap := fun v =>
    (List.map_congr_left (fun e he => by
      have h := hheap e he
      have hne : e.1 ≠ st.nextId := by omega
      simp [hne])).trans (List.map_id _)
  have ms1 : ∀ v : Bytes,
      st.heap.map (fun e => if e.1 = st.nextId + 1 then (e.1, v) else e) = st.heap := fun v =>
    (List.map_congr_left (fun e he => by
      have h := hheap e he
      have hne : e.1 ≠ st.nextId + 1 := by omega
      simp [hne])).trans (List.map_id _)
  have ms2 : ∀ v : Bytes,
      st.heap.map (fun e => if e.1 = st.nextId + 2 then (e.1, v) else e) = st.heap := fun v =>
    (List.map_congr_left (fun e he => by
      have h := hheap e he
      have hne : e.1 ≠ st.nextId + 2 := by omega
      simp [hne])).trans (List.map_id _)
  have ms3 : ∀ v : Bytes,
      st.heap.map (fun e => if e.1 = st.nextId + 3 then (e.1, v) else e) = st.heap := fun v =>
    (List.map_congr_left (fun e he => by
      have h := hheap e he
      have hne : e.1 ≠ st.nextId + 3 := by omega
      simp [hne])).trans (List.map_id _)
  have mz2 : st.heap.map
      (fun e => if e.1 = st.nextId + 2 then (e.1, zeroes e.2.length) else e) = st.heap :=
    (List.map_congr_left (fun e he => by
      have h := hheap e he
      have hne : e.1 ≠ st.nextId + 2 := by omega
      simp [hne])).trans (List.map_id _)
  have mz3 : st.heap.map
      (fun e => if e.1 = st.nextId + 3 then (e.1, zeroes e.2.length) else e) = st.heap :=
    (List.map_congr_left (fun e he => by
      have h := hheap e he
      have hne : e.1 ≠ st.nextId + 3 := by omega
      simp [hne])).trans (List.map_id _)
  simp [encrypt, createTempBuffer, deriveKey, clearBuffer, heapSet, hd,
    not_natCast_int_lt_zero, List.map_append, e2, e3, ms0, ms1, ms2, ms3, mz2, mz3,
    ha01, ha02, ha03, ha10, ha12, ha13, ha20, ha21, ha23, ha30, ha31, ha32,
    copyInto_length, zeroes_length]

theorem decrypt_fst_long (P : CryptoPrims) (st : EngineState) (s : String)
    (hd : st.isDestroyed = false) (hlen : 60 ≤ (P.b64Dec s).length) :
    (decrypt P st s).1 =
      match P.gcmDec (P.pbkdf2 (st.masterKey.getD []) ((P.b64Dec s).take 32) 100000 32)
        (((P.b64Dec s).drop 32).take 12) (((P.b64Dec s).drop 44).take 16)
        ((P.b64Dec s).drop 60) with
      | none => Except.error Err.CryptoError
      | some ptB => Except.ok (P.utf8Dec ptB) := by
  have hnn : ¬(((P.b64Dec s).length : Int) - 60 < 0) := by omega
  have htn : (((P.b64Dec s).length : Int) - 60).toNat = (P.b64Dec s).length - 60 := by omega
  have hsalt : copyInto (zeroes 32) ((P.b64Dec s).take 32) = (P.b64Dec s).take 32 :=
    copyInto_exact _ _ (by simp [zeroes_length]; omega)
  have hiv : copyInto (zeroes 12) (((P.b64Dec s).drop 32).take 12)
      = ((P.b64Dec s).drop 32).take 12 :=
    copyInto_exact _ _ (by simp [zeroes_length]; omega)
  have htag : copyInto (zeroes 16) (((P.b64Dec s).drop 44).take 16)
      = ((P.b64Dec s).drop 44).take 16 :=
    copyInto_exact _ _ (by simp [zeroes_length]; omega)
  have hct : copyInto (zeroes ((P.b64Dec s).length - 60)) ((P.b64Dec s).drop 60)
      = (P.b64Dec s).drop 60 :=
    copyInto_exact _ _ (by simp [zeroes_length])
  rcases hg : P.gcmDec (P.pbkdf2 (st.masterKey.getD []) ((P.b64Dec s).take 32) 100000 32)
      (((P.b64Dec s).drop 32).take 12) (((P.b64Dec s).drop 44).take 16)
      ((P.b64Dec s).drop 60) with _ | pt <;>
    simp [decrypt, createTempBuffer, deriveKey, hd, not_natCast_int_lt_zero, hnn, htn,
      hsalt, hiv, htag, hct, copyInto_zeroes_pbkdf2, hg]

theorem decrypt_fst_short (P : CryptoPrims) (st : EngineState) (s : String)
    (hd : st.isDestroyed = false) (hlen : (P.b64Dec s).length < 60) :
    (decrypt P st s).1 = Except.error Err.CryptoError := by
  have hneg : ((P.b64Dec s).length : Int) - 60 < 0 := by omega
  simp [decrypt, createTempBuffer, hd, not_natCast_int_lt_zero, hneg]

theorem decrypt_fst_envelope (P : CryptoPrims) (st : EngineState) (s : String)
    (salt iv tag ct : Bytes) (hd : st.isDestroyed = false)
    (hdec : P.b64Dec s = salt ++ iv ++ tag ++ ct)
    (hs : salt.length = 32) (hi : iv.length = 12) (ht : tag.length = 16) :
    (decrypt P st s).1 =
      match P.gcmDec (P.pbkdf2 (st.masterKey.getD []) salt 100000 32) iv tag ct with
      | none => Except.error Err.CryptoError
      | some ptB => Except.ok (P.utf8Dec ptB) := by
  have hra : salt ++ iv ++ tag ++ ct = salt ++ (iv ++ (tag ++ ct)) := by
    simp [List.append_assoc]
  have hlen : 60 ≤ (P.b64Dec s).length := by
    rw [hdec]
    simp [hs, hi, ht]
    omega
  have h1 : (P.b64Dec s).take 32 = salt := by
    rw [hdec, hra]
    exact take_len_append salt _ 32 hs
  have hdrop32 : (P.b64Dec s).drop 32 = iv ++ (tag ++ ct) := by
    rw [hdec, hra]
    exact drop_len_append salt _ 32 hs
  have h2 : ((P.b64Dec s).drop 32).take 12 = iv := by
    rw [hdrop32]
    exact take_len_append iv _ 12 hi
  have hdrop44 : (P.b64Dec s).drop 44 = tag ++ ct := by
    rw [hdec, show salt ++ iv ++ tag ++ ct = (salt ++ iv) ++ (tag ++ ct) by
      simp [List.append_assoc]]
    exact drop_len_append _ _ 44 (by simp [hs, hi])
  have h3 : ((P.b64Dec s).drop 44).take 16 = tag := by
    rw [hdrop44]
    exact take_len_append tag _ 16 ht
  have h4 : (P.b64Dec s).drop 60 = ct := by
    rw [hdec]
    exact drop_len_append _ _ 60 (by simp [hs, hi, ht])
  rw [decrypt_fst_long P st s hd hlen, h1, h2, h3, h4]

theorem destroy_destroy (st : EngineState) : destroy (destroy st) = destroy st := by
  by_cases h : st.isDestroyed <;> simp [destroy, h]

theorem destroy_tempBuffers (st : EngineState) (hd : st.isDestroyed = false) :
    (destroy st).tempBuffers = [] := by
  simp [destroy, hd, clearAllTempBuffers]

theorem destroy_masterKey (st : EngineState) (hd : st.isDestroyed = false) :
    (destroy st).masterKey = none := by
  simp [destroy, hd, clearAllTempBuffers]

theorem destroy_heapGet (st : EngineState) (hd : st.isDestroyed = false) (id : Nat)
    (hid : id ∈ st.tempBuffers) :
    heapGet (destroy st).heap id = (heapGet st.heap id).map (fun b => zeroes b.length) := by
  have : (destroy st).heap = (clearAllTempBuffers { st with masterKey := none }).heap := by
    simp [destroy, hd]
  rw [this, heapGet_clearAll]
  simp [hid]

theorem encrypt_destroyed (P : CryptoPrims) (st : EngineState) (salt iv : Bytes) (p : String)
    (hd : st.isDestroyed = true) :
    encrypt P st salt iv p = (.error .LifecycleError, st) := by
  simp [encrypt, hd]

theorem decrypt_destroyed (P : CryptoPrims) (st : EngineState) (s : String)
    (hd : st.isDestroyed = true) :
    decrypt P st s = (.error .LifecycleError, st) := by
  simp [decrypt, hd]

theorem createTempBuffer_destroyed (st : EngineState) (size : Int)
    (hd : st.isDestroyed = true) :
    createTempBuffer st size = (.error .LifecycleError, st) := by
  simp [createTempBuffer, hd]

/-! ### Claims -/

/-- C1: for every string p (the engine handles text through the UTF-8 codec,
empty string included) and an engine whose configured master key is present
and not destroyed, with fresh 32-byte salt and 12-byte iv,
decrypt(encrypt(p)) returns exactly p. -/
theorem C1_round_trip (P : CryptoPrims) (st : EngineState) (salt iv : Bytes) (p : String)
    (mk : Bytes) (hd : st.isDestroyed = false) (hmk : st.masterKey = some mk)
    (hs : salt.length = 32) (hi : iv.length = 12) :
    ∃ e : String, (encrypt P st salt iv p).1 = .ok e ∧
      (decrypt P (encrypt P st salt iv p).2 e).1 = .ok p := by
  have hgd : st.masterKey.getD [] = mk := by rw [hmk]; rfl
  have hdk : copyInto (zeroes 32) (P.pbkdf2 (st.masterKey.getD []) salt 100000 32)
      = P.pbkdf2 mk salt 100000 32 := by rw [copyInto_zeroes_pbkdf2, hgd]
  have he : (encrypt P st salt iv p).1 = .ok (P.b64Enc
      (salt ++ iv ++ (P.gcmEnc (P.pbkdf2 mk salt 100000 32) iv (P.utf8Enc p)).2
        ++ (P.gcmEnc (P.pbkdf2 mk salt 100000 32) iv (P.utf8Enc p)).1)) := by
    rw [encrypt_fst P st salt iv p hd, hdk]
  refine ⟨_, he, ?_⟩
  have hd1 := encrypt_isDestroyed P st salt iv p hd
  have hmk1 := encrypt_masterKey P st salt iv p hd
  have hgd1 : ((encrypt P st salt iv p).2).masterKey.getD [] = mk := by
    rw [hmk1, hmk]; rfl
  rw [decrypt_fst_envelope P _ _ salt iv _ _ hd1 (P.b64Dec_b64Enc _) hs hi
    (P.gcmEnc_tag_length _ _ _), hgd1, P.gcmDec_gcmEnc]
  simp [P.utf8Dec_utf8Enc]

/-- C1 witness: the round trip on a concrete engine and plaintext. -/
theorem C1_round_trip_witness :
    ∃ e : String, (encrypt toyPrims st0 (zeroes 32) (zeroes 12) "hi").1 = .ok e ∧
      (decrypt toyPrims (encrypt toyPrims st0 (zeroes 32) (zeroes 12) "hi").2 e).1
        = .ok "hi" :=
  C1_round_trip toyPrims st0 (zeroes 32) (zeroes 12) "hi" (zeroes 32) rfl rfl
    (by decide) (by decide)

/-- C2: on a live engine, for an envelope splitting into salt, iv, tag and
ciphertext, if the tag does not authenticate under the key derived from the
engine's master key and the envelope's salt (no plaintext encrypts to this
ciphertext-tag pair — the case produced by tampering with any region or by
using a different master key), decrypt fails with CryptoError; and whenever
decrypt does return a plaintext, that plaintext is exactly the
authenticated decryption (never unauthenticated or corrupted data). -/
theorem C2_tamper_rejection (P : CryptoPrims) (st : EngineState) (s : String)
    (mk salt iv tag ct : Bytes) (hd : st.isDestroyed = false)
    (hmk : st.masterKey = some mk) (hdec : P.b64Dec s = salt ++ iv ++ tag ++ ct)
    (hs : salt.length = 32) (hi : iv.length = 12) (ht : tag.length = 16) :
    ((∀ pt, P.gcmEnc (P.pbkdf2 mk salt 100000 32) iv pt ≠ (ct, tag)) →
      (decrypt P st s).1 = .error .CryptoError)
    ∧ (∀ p, (decrypt P st s).1 = .ok p →
        ∃ ptB, P.gcmEnc (P.pbkdf2 mk salt 100000 32) iv ptB = (ct, tag)
          ∧ p = P.utf8Dec ptB) := by
  have hgd : st.masterKey.getD [] = mk := by rw [hmk]; rfl
  have hdl := decrypt_fst_envelope P st s salt iv tag ct hd hdec hs hi ht
  rw [hgd] at hdl
  constructor
  · intro hna
    rw [hdl]
    rcases hg : P.gcmDec (P.pbkdf2 mk salt 100000 32) iv tag ct with _ | pt
    · rfl
    · exact absurd (P.gcmDec_auth _ _ _ _ _ hg) (hna pt)
  · intro p hp
    rw [hdl] at hp
    rcases hg : P.gcmDec (P.pbkdf2 mk salt 100000 32) iv tag ct with _ | pt
    · rw [hg] at hp
      cases hp
    · rw [hg] at hp
      refine ⟨pt, P.gcmDec_auth _ _ _ _ _ hg, ?_⟩
      cases hp
      rfl

/-- C2 witness: a concrete 60-byte envelope whose tag region was replaced
by a non-authenticating tag is rejected with CryptoError. -/
theorem C2_tamper_rejection_witness :
    (decrypt toyPrims st0 envC2).1 = .error .CryptoError := by
  have h := (C2_tamper_rejection toyPrims st0 envC2 (zeroes 32) (zeroes 32) (zeroes 12)
    tagBad [] rfl rfl (by decide) (by decide) (by decide) (by decide)).1
  apply h
  intro pt hpt
  cases pt with
  | nil => revert hpt; decide
  | cons b t =>
    have h1 := congrArg Prod.fst hpt
    simp [toyPrims, toyGcmEnc, streamAdd] at h1

/-- C3: the output of encrypt is the base64 encoding of
salt(32) ++ iv(12) ++ authTag(16) ++ ciphertext, hence at least 60 decoded
bytes; and decrypt splits its base64-decoded input at exactly offsets
0-32 (salt), 32-44 (iv), 44-60 (tag), 60-end (ciphertext). -/
theorem C3_envelope_format (P : CryptoPrims) (st : EngineState) (salt iv : Bytes)
    (p : String) (mk : Bytes) (hd : st.isDestroyed = false)
    (hmk : st.masterKey = some mk) (hs : salt.length = 32) (hi : iv.length = 12) :
    (∃ e, (encrypt P st salt iv p).1 = .ok e
      ∧ P.b64Dec e = salt ++ iv
          ++ (P.gcmEnc (P.pbkdf2 mk salt 100000 32) iv (P.utf8Enc p)).2
          ++ (P.gcmEnc (P.pbkdf2 mk salt 100000 32) iv (P.utf8Enc p)).1
      ∧ (P.gcmEnc (P.pbkdf2 mk salt 100000 32) iv (P.utf8Enc p)).2.length = 16
      ∧ 60 ≤ (P.b64Dec e).length)
    ∧ (∀ s', 60 ≤ (P.b64Dec s').length →
        (decrypt P st s').1 =
          match P.gcmDec (P.pbkdf2 mk ((P.b64Dec s').take 32) 100000 32)
            (((P.b64Dec s').drop 32).take 12) (((P.b64Dec s').drop 44).take 16)
            ((P.b64Dec s').drop 60) with
          | none => Except.error Err.CryptoError
          | some ptB => Except.ok (P.utf8Dec ptB)) := by
  have hgd : st.masterKey.getD [] = mk := by rw [hmk]; rfl
  have hdk : copyInto (zeroes 32) (P.pbkdf2 (st.masterKey.getD []) salt 100000 32)
      = P.pbkdf2 mk salt 100000 32 := by rw [copyInto_zeroes_pbkdf2, hgd]
  constructor
  · refine ⟨_, by rw [encrypt_fst P st salt iv p hd, hdk], P.b64Dec_b64Enc _,
      P.gcmEnc_tag_length _ _ _, ?_⟩
    rw [P.b64Dec_b64Enc]
    simp [hs, hi, P.gcmEnc_tag_length]
    omega
  · intro s' hlen
    rw [decrypt_fst_long P st s' hd hlen, hgd]

/-- C3 witness: the format statement on a concrete engine and plaintext. -/
theorem C3_envelope_format_witness :
    ∃ e, (encrypt toyPrims st0 (zeroes 32) (zeroes 12) "x").1 = .ok e
      ∧ toyPrims.b64Dec e = zeroes 32 ++ zeroes 12
          ++ (toyPrims.gcmEnc (toyPrims.pbkdf2 (zeroes 32) (zeroes 32) 100000 32)
              (zeroes 12) (toyPrims.utf8Enc "x")).2
          ++ (toyPrims.gcmEnc (toyPrims.pbkdf2 (zeroes 32) (zeroes 32) 100000 32)
              (zeroes 12) (toyPrims.utf8Enc "x")).1
      ∧ (toyPrims.gcmEnc (toyPrims.pbkdf2 (zeroes 32) (zeroes 32) 100000 32)
          (zeroes 12) (toyPrims.utf8Enc "x")).2.length = 16
      ∧ 60 ≤ (toyPrims.b64Dec e).length :=
  (C3_envelope_format toyPrims st0 (zeroes 32) (zeroes 12) "x" (zeroes 32) rfl rfl
    (by decide) (by decide)).1

/-- C4 counterexample: on a destroyed engine, `clearBuffer` and
`clearAllTempBuffers` do not fail with a LifecycleError (they have no
lifecycle guard in the source, encryption.js lines 177-194): both calls
complete normally, here leaving the destroyed state unchanged. -/
theorem C4_counterexample :
    clearBuffer (destroy st0) 0 = destroy st0
      ∧ clearAllTempBuffers (destroy st0) = destroy st0 := by decide

/-- C4 amended: after destroy(), encrypt, decrypt and createTempBuffer fail
with LifecycleError; clearBuffer and clearAllTempBuffers perform no
lifecycle check and complete normally with their usual effect; and a second
destroy() is a no-op with no additional effect. -/
theorem C4_post_destroy (P : CryptoPrims) (st : EngineState) (salt iv : Bytes)
    (p s : String) (id : Nat) (size : Int) (hd : st.isDestroyed = true) :
    encrypt P st salt iv p = (.error .LifecycleError, st)
    ∧ decrypt P st s = (.error .LifecycleError, st)
    ∧ createTempBuffer st size = (.error .LifecycleError, st)
    ∧ (clearBuffer st id).tempBuffers = st.tempBuffers.filter (fun j => j ≠ id)
    ∧ (clearBuffer st id).isDestroyed = true
    ∧ (clearAllTempBuffers st).tempBuffers = []
    ∧ (clearAllTempBuffers st).isDestroyed = true
    ∧ (∀ st2 : EngineState, destroy (destroy st2) = destroy st2) :=
  ⟨encrypt_destroyed P st salt iv p hd, decrypt_destroyed P st s hd,
    createTempBuffer_destroyed st size hd, tempBuffers_clearBuffer st id,
    hd, tempBuffers_clearAll st, hd, destroy_destroy⟩

/-- C4 witness: the post-destroy contract on a concrete destroyed engine. -/
theorem C4_post_destroy_witness :
    encrypt toyPrims (destroy st0) (zeroes 32) (zeroes 12) ""
      = (.error .LifecycleError, destroy st0) :=
  (C4_post_destroy toyPrims (destroy st0) (zeroes 32) (zeroes 12) "" "" 0 0
    (by decide)).1

/-- C5 counterexample: after a successful encrypt on a fresh engine, the
salt buffer (id 0) and iv buffer (id 1) created during the call are still
in the tracking set — they are not released during normal completion
(encryption.js only clears the plaintext and derived-key buffers,
lines 76-77). -/
theorem C5_counterexample :
    0 ∈ ((encrypt toyPrims st0 (zeroes 32) (zeroes 12) "").2).tempBuffers
    ∧ 1 ∈ ((encrypt toyPrims st0 (zeroes 32) (zeroes 12) "").2).tempBuffers := by
  decide

/-- C5 amended: when encrypt returns successfully, the plaintext buffer and
the derived-key buffer have been zeroed and removed from the tracking set,
but the salt and iv buffers created during the call remain in the tracking
set, still holding the salt and iv; they are only cleared en masse later
(on an error path or by destroy(), which empties the set and zeroes every
tracked buffer). -/
theorem C5_buffer_hygiene (P : CryptoPrims) (st : EngineState) (salt iv : Bytes)
    (p : String) (hd : st.isDestroyed = false)
    (hfresh : ∀ id ∈ st.tempBuffers, id < st.nextId)
    (hheap : ∀ e ∈ st.heap, e.1 < st.nextId) :
    heapGet ((encrypt P st salt iv p).2).heap (st.nextId + 2)
        = some (zeroes (P.utf8Enc p).length)
    ∧ heapGet ((encrypt P st salt iv p).2).heap (st.nextId + 3) = some (zeroes 32)
    ∧ st.nextId + 2 ∉ ((encrypt P st salt iv p).2).tempBuffers
    ∧ st.nextId + 3 ∉ ((encrypt P st salt iv p).2).tempBuffers
    ∧ ((encrypt P st salt iv p).2).tempBuffers
        = st.tempBuffers ++ [st.nextId, st.nextId + 1]
    ∧ heapGet ((encrypt P st salt iv p).2).heap st.nextId = some salt
    ∧ heapGet ((encrypt P st salt iv p).2).heap (st.nextId + 1) = some iv
    ∧ (destroy ((encrypt P st salt iv p).2)).tempBuffers = []
    ∧ (∀ id ∈ ((encrypt P st salt iv p).2).tempBuffers,
        heapGet (destroy ((encrypt P st salt iv p).2)).heap id
          = (heapGet ((encrypt P st salt iv p).2).heap id).map
              (fun b => zeroes b.length)) := by
  have hh := encrypt_heap P st salt iv p hd hheap
  have htb := encrypt_tempBuffers P st salt iv p hd hfresh
  have happ : ∀ tgt : Nat, st.nextId ≤ tgt →
      heapGet ((encrypt P st salt iv p).2).heap tgt
        = heapGet [(st.nextId, salt), (st.nextId + 1, iv),
            (st.nextId + 2, zeroes (P.utf8Enc p).length),
            (st.nextId + 3, zeroes 32)] tgt := by
    intro tgt htgt
    rw [hh]
    exact heapGet_append_right _ _ _ (fun e he => by
      have := hheap e he
      omega)
  have hd1 := encrypt_isDestroyed P st salt iv p hd
  refine ⟨?_, ?_, ?_, ?_, htb, ?_, ?_, destroy_tempBuffers _ hd1,
    fun id hid => destroy_heapGet _ hd1 id hid⟩
  · rw [happ _ (by omega)]
    simp [heapGet_cons]
  · rw [happ _ (by omega)]
    simp [heapGet_cons]
  · rw [htb]
    simp
    intro h
    exact absurd h (by
      intro hmem
      have := hfresh _ hmem
      omega)
  · rw [htb]
    simp
    intro h
    exact absurd h (by
      intro hmem
      have := hfresh _ hmem
      omega)
  · rw [happ _ (by omega)]
    simp [heapGet_cons]
  · rw [happ _ (by omega)]
    simp [heapGet_cons]

/-- C5 witness: the amended buffer-hygiene statement on a concrete engine. -/
theorem C5_buffer_hygiene_witness :
    heapGet ((encrypt toyPrims st0 (zeroes 32) (zeroes 12) "hi").2).heap 2
        = some (zeroes (toyPrims.utf8Enc "hi").length)
    ∧ heapGet ((encrypt toyPrims st0 (zeroes 32) (zeroes 12) "hi").2).heap 3
        = some (zeroes 32) := by
  have h := C5_buffer_hygiene toyPrims st0 (zeroes 32) (zeroes 12) "hi" rfl
    (by decide) (by decide)
  exact ⟨h.1, h.2.1⟩

/-- C6: on a live engine, any input whose base64 decoding is shorter than
60 bytes is rejected with CryptoError (in the source the negative-size
buffer allocation throws inside the try block and is rethrown as a
decryption failure), and every failure of decrypt is a CryptoError — never
an unrelated error kind — so no plaintext is returned for such inputs. -/
theorem C6_malformed_rejection (P : CryptoPrims) (st : EngineState) (s : String)
    (hd : st.isDestroyed = false) :
    ((P.b64Dec s).length < 60 → (decrypt P st s).1 = .error .CryptoError)
    ∧ (∀ e, (decrypt P st s).1 = .error e → e = .CryptoError) := by
  constructor
  · exact decrypt_fst_short P st s hd
  · intro e he
    by_cases hlen : (P.b64Dec s).length < 60
    · rw [decrypt_fst_short P st s hd hlen] at he
      injection he with h
      exact h.symm
    · rw [decrypt_fst_long P st s hd (by omega)] at he
      rcases hg : P.gcmDec (P.pbkdf2 (st.masterKey.getD []) ((P.b64Dec s).take 32) 100000 32)
          (((P.b64Dec s).drop 32).take 12) (((P.b64Dec s).drop 44).take 16)
          ((P.b64Dec s).drop 60) with _ | pt
      · rw [hg] at he
        simp at he
        exact he.symm
      · rw [hg] at he
        simp at he

/-- C6 witness: a garbage string decoding to fewer than 60 bytes is
rejected with CryptoError. -/
theorem C6_malformed_rejection_witness :
    (decrypt toyPrims st0 "abc").1 = .error .CryptoError :=
  (C6_malformed_rejection toyPrims st0 "abc" rfl).1 (by decide)

/-- C7: construction looks up the configuration value named by the
upper-cased source tag suffixed with ENCRYPTION_KEY; a missing value or a
decoded length other than 32 yields a ConfigurationError, and on success
the engine's master key is exactly the 32 decoded bytes. -/
theorem C7_master_key_config (P : CryptoPrims) (env : String → Option String)
    (source : String) :
    (env (upperJS source ++ "_ENCRYPTION_KEY") = none →
      mkEngine P env source = .error .ConfigurationError)
    ∧ (∀ v, env (upperJS source ++ "_ENCRYPTION_KEY") = some v →
        (P.b64Dec v).length ≠ 32 → mkEngine P env source = .error .ConfigurationError)
    ∧ (∀ v stE, env (upperJS source ++ "_ENCRYPTION_KEY") = some v →
        mkEngine P env source = .ok stE →
        stE.masterKey = some (P.b64Dec v) ∧ (P.b64Dec v).length = 32) := by
  refine ⟨?_, ?_, ?_⟩
  · intro h
    simp [mkEngine, setMasterKey, h, Except.map]
  · intro v hv hlen
    by_cases hv0 : v = ""
    · simp [mkEngine, setMasterKey, hv, hv0, Except.map]
    · simp [mkEngine, setMasterKey, hv, hv0, hlen, Except.map]
  · intro v stE hv hok
    by_cases hv0 : v = ""
    · simp [mkEngine, setMasterKey, hv, hv0, Except.map] at hok
    · by_cases hlen : (P.b64Dec v).length = 32
      · simp [mkEngine, setMasterKey, hv, hv0, hlen, Except.map] at hok
        subst hok
        exact ⟨rfl, hlen⟩
      · simp [mkEngine, setMasterKey, hv, hv0, hlen, Except.map] at hok

/-- C7 witness: construction against an empty configuration fails with a
ConfigurationError. -/
theorem C7_master_key_config_witness :
    mkEngine toyPrims envNone "test" = .error .ConfigurationError :=
  (C7_master_key_config toyPrims envNone "test").1 rfl

/-- C8: two encrypt runs of the same plaintext whose fresh salt or iv
differ produce different envelope strings, and the first 44 decoded bytes
of each envelope are exactly that run's salt followed by its iv, so the two
envelopes differ within their first 44 decoded bytes. -/
theorem C8_nondeterminism (P : CryptoPrims) (st : EngineState)
    (salt1 iv1 salt2 iv2 : Bytes) (p : String) (hd : st.isDestroyed = false)
    (hs1 : salt1.length = 32) (hi1 : iv1.length = 12)
    (hs2 : salt2.length = 32) (hi2 : iv2.length = 12)
    (hdiff : salt1 ≠ salt2 ∨ iv1 ≠ iv2) :
    ∃ e1 e2 : String,
      (encrypt P st salt1 iv1 p).1 = .ok e1
      ∧ (encrypt P (encrypt P st salt1 iv1 p).2 salt2 iv2 p).1 = .ok e2
      ∧ e1 ≠ e2
      ∧ (P.b64Dec e1).take 44 = salt1 ++ iv1
      ∧ (P.b64Dec e2).take 44 = salt2 ++ iv2 := by
  have hd1 := encrypt_isDestroyed P st salt1 iv1 p hd
  have htake : ∀ (sa ivv tg c : Bytes), sa.length = 32 → ivv.length = 12 →
      (P.b64Dec (P.b64Enc (sa ++ ivv ++ tg ++ c))).take 44 = sa ++ ivv := by
    intro sa ivv tg c h1 h2
    rw [P.b64Dec_b64Enc, show sa ++ ivv ++ tg ++ c = (sa ++ ivv) ++ (tg ++ c) by
      simp [List.append_assoc]]
    exact take_len_append _ _ 44 (by simp [h1, h2])
  have he1 := encrypt_fst P st salt1 iv1 p hd
  have he2 := encrypt_fst P ((encrypt P st salt1 iv1 p).2) salt2 iv2 p hd1
  have ht1 := htake salt1 iv1
    (P.gcmEnc (copyInto (zeroes 32) (P.pbkdf2 (st.masterKey.getD []) salt1 100000 32))
      iv1 (P.utf8Enc p)).2
    (P.gcmEnc (copyInto (zeroes 32) (P.pbkdf2 (st.masterKey.getD []) salt1 100000 32))
      iv1 (P.utf8Enc p)).1 hs1 hi1
  have ht2 := htake salt2 iv2
    (P.gcmEnc (copyInto (zeroes 32)
        (P.pbkdf2 (((encrypt P st salt1 iv1 p).2).masterKey.getD []) salt2 100000 32))
      iv2 (P.utf8Enc p)).2
    (P.gcmEnc (copyInto (zeroes 32)
        (P.pbkdf2 (((encrypt P st salt1 iv1 p).2).masterKey.getD []) salt2 100000 32))
      iv2 (P.utf8Enc p)).1 hs2 hi2
  refine ⟨_, _, he1, he2, ?_, ht1, ht2⟩
  intro heq
  rw [heq] at ht1
  have hsum : salt1 ++ iv1 = salt2 ++ iv2 := ht1.symm.trans ht2
  rcases List.append_inj hsum (hs1.trans hs2.symm) with ⟨hsa, hiva⟩
  rcases hdiff with h | h
  · exact h hsa
  · exact h hiva

/-- C8 witness: two concrete runs with different salts yield envelopes that
differ in the first 44 decoded bytes. -/
theorem C8_nondeterminism_witness :
    ∃ e1 e2 : String,
      (encrypt toyPrims st0 (zeroes 32) (zeroes 12) "t").1 = .ok e1
      ∧ (encrypt toyPrims (encrypt toyPrims st0 (zeroes 32) (zeroes 12) "t").2
          saltB (zeroes 12) "t").1 = .ok e2
      ∧ e1 ≠ e2
      ∧ (toyPrims.b64Dec e1).take 44 = zeroes 32 ++ zeroes 12
      ∧ (toyPrims.b64Dec e2).take 44 = saltB ++ zeroes 12 :=
  C8_nondeterminism toyPrims st0 (zeroes 32) (zeroes 12) saltB (zeroes 12) "t" rfl
    (by decide) (by decide) (by decide) (by decide) (Or.inl (by decide))

/-- C9: clearBuffer zeroes the buffer's bytes and removes it from the
tracking set, leaves every other buffer's contents and tracking status
unchanged, is a no-op on the tracking set for an untracked buffer, and —
being total in the source, with no lifecycle guard or failure path — never
fails (in particular not on a non-destroyed engine). -/
theorem C9_clearBuffer_spec (st : EngineState) (id : Nat) :
    heapGet (clearBuffer st id).heap id = (heapGet st.heap id).map (fun b => zeroes b.length)
    ∧ id ∉ (clearBuffer st id).tempBuffers
    ∧ (∀ j, j ≠ id → heapGet (clearBuffer st id).heap j = heapGet st.heap j
        ∧ ((j ∈ (clearBuffer st id).tempBuffers) ↔ j ∈ st.tempBuffers))
    ∧ (id ∉ st.tempBuffers → (clearBuffer st id).tempBuffers = st.tempBuffers)
    ∧ (clearBuffer st id).isDestroyed = st.isDestroyed
    ∧ (clearBuffer st id).masterKey = st.masterKey := by
  refine ⟨?_, ?_, ?_, ?_, rfl, rfl⟩
  · rw [heapGet_clearBuffer]
    simp
  · simp [tempBuffers_clearBuffer, List.mem_filter]
  · intro j hj
    constructor
    · rw [heapGet_clearBuffer]
      simp [hj]
    · simp [tempBuffers_clearBuffer, List.mem_filter, hj]
  · intro hni
    rw [tempBuffers_clearBuffer]
    refine List.filter_eq_self.mpr (fun a ha => ?_)
    simp
    intro hai
    exact hni (hai ▸ ha)

/-- C9 witness: clearing the tracked two-byte buffer of a concrete engine
zeroes it, and an untracked id leaves the tracking set unchanged. -/
theorem C9_clearBuffer_spec_witness :
    heapGet (clearBuffer stW 0).heap 0 = some (zeroes 2)
    ∧ (clearBuffer stW 5).tempBuffers = stW.tempBuffers := by
  constructor
  · have h := (C9_clearBuffer_spec stW 0).1
    rw [h]
    decide
  · exact (C9_clearBuffer_spec stW 5).2.2.2.1 (by decide)

/-- C10: the decoded length of an envelope produced by encrypt is exactly
60 plus the byte length of the UTF-8 encoding of the plaintext (the GCM
ciphertext is as long as the plaintext bytes), so the envelope size reveals
the plaintext's exact byte length. -/
theorem C10_length_leak (P : CryptoPrims) (st : EngineState) (salt iv : Bytes)
    (p : String) (hd : st.isDestroyed = false)
    (hs : salt.length = 32) (hi : iv.length = 12) :
    ∃ e, (encrypt P st salt iv p).1 = .ok e
      ∧ (P.b64Dec e).length = 60 + (P.utf8Enc p).length := by
  refine ⟨_, encrypt_fst P st salt iv p hd, ?_⟩
  rw [P.b64Dec_b64Enc]
  simp [hs, hi, P.gcmEnc_tag_length, P.gcmEnc_ct_length]
  omega

/-- C10 witness: the envelope of a concrete two-character plaintext
decodes to exactly 60 plus its encoded byte length. -/
theorem C10_length_leak_witness :
    ∃ e, (encrypt toyPrims st0 (zeroes 32) (zeroes 12) "hi").1 = .ok e
      ∧ (toyPrims.b64Dec e).length = 60 + (toyPrims.utf8Enc "hi").length :=
  C10_length_leak toyPrims st0 (zeroes 32) (zeroes 12) "hi" rfl (by decide) (by decide)

end StravaConnect
